import Mathlib

/-!
Verification of the Dataview-to-Bases transformer
(`DataviewToBasesTransformer` in the Bases-Toolbox repository).

The transformer converts a parsed Dataview query AST (`Query`, `Field`,
`Source`) into a Bases view-configuration value.  This file gives a shallow
embedding of the AST types and of every transformer method the claims touch,
and proves or refutes the claims.

Embedding conventions:
* JS strings are `String`; JS object literals used as string maps are
  insertion-ordered association lists `List (String × String)`.
* JS numbers that the claims touch are integers, modelled as `Int`.
* The `any` values flowing through the transformer (strings, `{and:[...]}` /
  `{or:[...]}` / `{not:[...]}` objects, and `null`) are the inductive
  `BValue`; template-literal coercion of an object is `"[object Object]"`,
  of `null` is `"null"`, matching JavaScript.
* Luxon `DateTime` literals are identified by their `toISODate()` string;
  Luxon `Duration` literals by their unit components.  Both are "objects
  with a `toISO` member" for the transformer's duck-typing checks.
-/

namespace BasesToolbox

/-! ## AST types (`field.ts`, `source-types.ts`, `query-types.ts`) -/

/-- A Luxon `Duration` value, identified by its unit components. -/
structure DurationVal where
  years : Nat
  months : Nat
  weeks : Nat
  days : Nat
  hours : Nat
  minutes : Nat
  seconds : Nat
deriving DecidableEq, Repr

/-- The value carried by a `LiteralField`. -/
inductive LitValue where
  | str (s : String)
  | num (n : Int)
  | bool (b : Bool)
  | null
  | date (isoDate : String)
  | dur (d : DurationVal)
deriving DecidableEq, Repr

/-- Dataview expression AST (`Field`). -/
inductive Field where
  | variable (name : String)
  | literal (value : LitValue)
  | index (object : Field) (idx : Field)
  | binaryop (op : String) (left : Field) (right : Field)
  | function (func : Field) (arguments : List Field)
  | negated (child : Field)
  | list (values : List Field)

/-- A named table column (`NamedField`). -/
structure NamedField where
  name : String
  field : Field

/-- Dataview source AST (`Source`). -/
inductive Source where
  | folder (folder : String)
  | tag (tag : String)
  | link (file : String)
  | negate (child : Source)
  | binaryop (op : String) (left : Source) (right : Source)
  | empty
deriving DecidableEq, Repr

/-- The query header (`QueryHeader`). -/
inductive QueryHeader where
  | table (fields : List NamedField) (showId : Bool)
  | list (format : Option Field) (showId : Bool)
  | task
  | calendar (field : NamedField)

/-- Sort direction of a `QuerySortBy`. -/
inductive SortDirection where
  | ascending
  | descending
deriving DecidableEq, Repr

/-- A sort-clause entry (`QuerySortBy`). -/
structure QuerySortBy where
  field : Field
  direction : SortDirection

/-- A query operation (`QueryOperation`). -/
inductive QueryOperation where
  | whereStep (clause : Field)
  | sortStep (fields : List QuerySortBy)
  | limitStep (amount : Field)
  | groupStep (field : NamedField)
  | flattenStep (field : NamedField)
  | extractStep

/-- A full parsed query (`Query`). -/
structure Query where
  header : QueryHeader
  source : Source
  operations : List QueryOperation

/-! ## String primitives

JavaScript string operations, modelled over the character list of the
string so that every definition evaluates by kernel reduction. -/

/-- JS `toLowerCase` (ASCII range, which is all the transformer uses). -/
def strLower (s : String) : String := String.mk (s.toList.map Char.toLower)

/-- JS `startsWith`. -/
def strStartsWith (s pre : String) : Bool := pre.toList.isPrefixOf s.toList

/-- JS `endsWith`. -/
def strEndsWith (s suf : String) : Bool := suf.toList.isSuffixOf s.toList

/-- Drop the first `n` characters (`slice(n)`). -/
def strDrop (s : String) (n : Nat) : String := String.mk (s.toList.drop n)

/-- Drop the last `n` characters. -/
def strDropRight (s : String) (n : Nat) : String :=
  String.mk (s.toList.take (s.toList.length - n))

/-- JS `includes(c)` for a single character. -/
def strContainsChar (s : String) (c : Char) : Bool := s.toList.contains c

/-- JS `trim`: strip leading and trailing whitespace. -/
def strTrim (s : String) : String :=
  String.mk
    (((s.toList.dropWhile Char.isWhitespace).reverse.dropWhile
      Char.isWhitespace).reverse)

/-- JS global replacement of each hyphen by an underscore. -/
def hyphensToUnderscores (s : String) : String :=
  String.mk (s.toList.map fun c => if c = '-' then '_' else c)

/-- JS `Array.join(sep)`. -/
def strJoin (sep : String) : List String → String
  | [] => ""
  | [x] => x
  | x :: xs => x ++ sep ++ strJoin sep xs

/-! ## Target values

The transformer's expression-level results are JavaScript `any` values:
strings, logical-group objects, or `null`. -/

/-- A transformer result value: a string, a `{op:[...]}` logical group
(`op` is `"and"`, `"or"` or `"not"`), or JS `null`. -/
inductive BValue where
  | null
  | str (s : String)
  | group (op : String) (children : List BValue)

/-- JS template-literal / string coercion of a transformer value. -/
def BValue.asStr : BValue → String
  | .null => "null"
  | .str s => s
  | .group _ _ => "[object Object]"

/-- JS truthiness of a transformer value (`null` and `""` are falsy). -/
def BValue.truthy : BValue → Bool
  | .null => false
  | .str s => s ≠ ""
  | .group _ _ => true

/-- Whether a value is a logical group with the given operator key. -/
def BValue.isGroupOf (op : String) : BValue → Bool
  | .group o _ => o = op
  | _ => false

/-- Embedding of `isLogicalObject`: a non-null, non-array object with an `and`/`or` key
and no `type` key. -/
def isLogicalObject : BValue → Bool
  | .group o _ => o = "and" || o = "or"
  | _ => false

mutual
/-- Flattening invariant: no `and`/`or` group directly contains a group
with the same operator, recursively. -/
def BValue.Flat : BValue → Bool
  | .null => true
  | .str _ => true
  | .group op cs => BValue.FlatList op cs
termination_by structural v => v

/-- Flatness check for all children of a group with operator `op`. -/
def BValue.FlatList : String → List BValue → Bool
  | _, [] => true
  | op, c :: cs =>
    (!((op = "and" || op = "or") && c.isGroupOf op)) && c.Flat
      && BValue.FlatList op cs
termination_by structural _ l => l
end

/-! ## `flattenLogicalOperations` -/

/-- The loop body of `flattenLogicalOperations`: a `null` entry is
skipped, a same-operator group is inlined, everything else is kept
as-is. -/
def flattenStep (operator : String) : BValue → List BValue
  | .null => []
  | .group o cs => if o = operator then cs else [.group o cs]
  | .str s => [.str s]

/-- The flattened child list built by `flattenLogicalOperations`. -/
def flattenOps (operator : String) : List BValue → List BValue
  | [] => []
  | v :: rest => flattenStep operator v ++ flattenOps operator rest

/-- Embedding of `DataviewToBasesTransformer.flattenLogicalOperations`. -/
def flattenLogicalOperations (operator : String) (operations : List BValue) :
    BValue :=
  match flattenOps operator operations with
  | [] => .null
  | [x] => x
  | xs => .group operator xs

/-! ## Property mapping and literals -/

/-- Wrap a string in double quotes. -/
def quoteStr (s : String) : String := "\"" ++ s ++ "\""

/-- The static property rename table of
`mapDataviewPropertyToBaseProperty`. -/
def propertyMap : List (String × String) :=
  [("file.path", "file.path"), ("file.name", "file.name"),
   ("file.folder", "file.folder"), ("file.ext", "file.ext"),
   ("file.size", "file.size"), ("file.ctime", "file.ctime"),
   ("file.mtime", "file.mtime"), ("file.cday", "file.ctime"),
   ("file.mday", "file.mtime"), ("tags", "tags")]

/-- Embedding of `DataviewToBasesTransformer.mapDataviewPropertyToBaseProperty`. -/
def mapDataviewPropertyToBaseProperty (prop : String) : String :=
  let prop := strTrim prop
  match propertyMap.lookup prop with
  | some v => v
  | none => if strContainsChar prop '-' then hyphensToUnderscores prop else prop

/-- Pluralization suffix used by the duration stringifiers
(`value !== 1 ? "s" : ""`). -/
def pluralS (n : Nat) : String := if n ≠ 1 then "s" else ""

/-- Embedding of `DataviewToBasesTransformer.transformLiteral`. -/
def transformLiteral : LitValue → String
  | .str s => quoteStr s
  | .num n => toString n
  | .bool b => if b then "true" else "false"
  | .null => "null"
  | .date isoDate => "date(" ++ quoteStr isoDate ++ ")"
  | .dur d =>
    if d.years ≠ 0 then quoteStr (toString d.years ++ " year" ++ pluralS d.years)
    else if d.months ≠ 0 then
      quoteStr (toString d.months ++ " month" ++ pluralS d.months)
    else if d.weeks ≠ 0 then
      quoteStr (toString d.weeks ++ " week" ++ pluralS d.weeks)
    else if d.days ≠ 0 then quoteStr (toString d.days ++ " day" ++ pluralS d.days)
    else if d.hours ≠ 0 then
      quoteStr (toString d.hours ++ " hour" ++ pluralS d.hours)
    else if d.minutes ≠ 0 then
      quoteStr (toString d.minutes ++ " minute" ++ pluralS d.minutes)
    else if d.seconds ≠ 0 then
      quoteStr (toString d.seconds ++ " second" ++ pluralS d.seconds)
    else quoteStr "0 days"

/-! ## Structural predicates on fields -/

/-- Comparison operators recognized by `isFilterExpression`. -/
def compareOps : List String := ["=", "!=", ">", ">=", "<", "<="]

/-- The filter-function name list of `isFilterExpression` (compared,
as in the source, against the *lower-cased* call name, so the mixed-case
entries never match). -/
def filterFunctions : List String :=
  ["contains", "containsAny", "containsAll", "startswith", "endswith",
   "empty", "notEmpty", "hasTag", "hasLink", "inFolder"]

/-- Embedding of `DataviewToBasesTransformer.isFilterExpression`. -/
def isFilterExpression : Field → Bool
  | .binaryop op _ _ => compareOps.contains op
  | .function (.variable n) _ => filterFunctions.contains (strLower n)
  | .function _ _ => false
  | .negated _ => true
  | _ => false

/-- Embedding of `DataviewToBasesTransformer.isDateExpression`. -/
def isDateExpression : Field → Bool
  | .function (.variable n) _ => strLower n = "date" || strLower n = "now"
  | .literal (.date _) => true
  | _ => false

/-- The `isLeftDate` check of `transformBinaryOp`: a date expression, or a function
call whose callee is the variable `date`. -/
def isLeftDateOperand (lf : Field) : Bool :=
  isDateExpression lf ||
    (match lf with
     | .function (.variable n) _ => strLower n = "date"
     | _ => false)

/-- The `isRightDuration` check of `transformBinaryOp`: a `dur(...)` call, or a
literal whose value is an object with a `toISO` member (a Luxon `Duration`
or `DateTime`). -/
def isRightDurationOperand (rf : Field) : Bool :=
  (match rf with
   | .function (.variable n) _ => strLower n = "dur"
   | _ => false) ||
  (match rf with
   | .literal (.dur _) => true
   | .literal (.date _) => true
   | _ => false)

/-- Embedding of `isDateLikeExpression`: a `Y - M - D` chain of numeric literals in
calendar range. -/
def isDateLikeExpression : Field → Bool
  | .binaryop "-" (.literal (.num y))
      (.binaryop "-" (.literal (.num m)) (.literal (.num d))) =>
    1900 ≤ y && y ≤ 2100 && 1 ≤ m && m ≤ 12 && 1 ≤ d && d ≤ 31
  | _ => false

/-- JS `String.padStart(2, "0")`. -/
def padStart2 (s : String) : String :=
  if s.length < 2 then String.mk (List.replicate (2 - s.length) '0') ++ s else s

/-- Embedding of `extractDateString`: rebuild `YYYY-MM-DD` from a `Y - M - D` literal
chain. -/
def extractDateString : Field → Option String
  | .binaryop "-" (.literal (.num y))
      (.binaryop "-" (.literal (.num m)) (.literal (.num d))) =>
    some (toString y ++ "-" ++ padStart2 (toString m) ++ "-" ++
      padStart2 (toString d))
  | _ => none

/-! ## `transformBinaryOp` -/

/-- The Dataview-to-Bases operator table of `transformBinaryOp`. -/
def operatorMap : List (String × String) :=
  [("=", "=="), ("!=", "!="), (">", ">"), (">=", ">="), ("<", "<"),
   ("<=", "<="), ("+", "+"), ("-", "-"), ("*", "*"), ("/", "/"),
   ("%", "%"), ("&", "&&"), ("|", "||")]

/-- JS `s.slice(1, -1)` applied when the string is wrapped in double quotes
(the duration-unquoting step of `transformBinaryOp`). -/
def stripQuotePair (s : String) : String :=
  if strStartsWith s "\"" && strEndsWith s "\"" then strDropRight (strDrop s 1) 1 else s

/-- The body of `transformBinaryOp`, with the already-transformed operand
values passed in (`left`/`right` in the source). -/
def transformBinaryOpCore (op : String) (lf rf : Field)
    (left right : BValue) : BValue :=
  let operator := (operatorMap.lookup op).getD op
  if op = "&" || op = "|" then
    let logicalOp := if op = "&" then "and" else "or"
    if isFilterExpression lf || isFilterExpression rf ||
        isLogicalObject left || isLogicalObject right then
      flattenLogicalOperations logicalOp [left, right]
    else
      .str (left.asStr ++ " " ++ operator ++ " " ++ right.asStr)
  else if (op = "+" || op = "-") && isLeftDateOperand lf &&
      isRightDurationOperand rf then
    let durationStr := stripQuotePair right.asStr
    let durationStr :=
      if op = "-" && !(strStartsWith durationStr "-") then "-" ++ durationStr
      else durationStr
    .str (left.asStr ++ " + " ++ quoteStr durationStr)
  else if (op = "+" || op = "-") && isLeftDateOperand lf &&
      isDateExpression rf then
    .str (left.asStr ++ " - " ++ right.asStr)
  else if op = "+" &&
      (match rf with | .literal (.str _) => true | _ => false) then
    .str (left.asStr ++ " + " ++ right.asStr)
  else
    .str (left.asStr ++ " " ++ operator ++ " " ++ right.asStr)

/-! ## `transformFunction` -/

/-- The Dataview-to-Bases function rename table. -/
def functionMap : List (String × String) :=
  [("round", "round"), ("floor", "floor"), ("ceil", "ceil"), ("abs", "abs"),
   ("min", "min"), ("max", "max"), ("sum", "sum"), ("avg", "average"),
   ("length", "length"), ("contains", "contains"),
   ("containsany", "containsAny"), ("containsall", "containsAll"),
   ("startswith", "startsWith"), ("endswith", "endsWith"),
   ("empty", "isEmpty"), ("notempty", "!isEmpty"), ("dateformat", "format"),
   ("date", "date"), ("now", "now"), ("dur", "duration"), ("year", "year"),
   ("month", "month"), ("day", "day"), ("hour", "hour"),
   ("minute", "minute"), ("second", "second"),
   ("millisecond", "millisecond"), ("tofixed", "toFixed"),
   ("tostring", "toString"), ("trim", "trim"), ("title", "title"),
   ("split", "split"), ("replace", "replace"), ("slice", "slice"),
   ("reverse", "reverse"), ("join", "join"), ("sort", "sort"),
   ("flat", "flat"), ("unique", "unique")]

/-- The `date(today|tomorrow|yesterday)` keyword rewrites. -/
def dateKeyword : String → Option String
  | "today" => some "now()"
  | "tomorrow" => some ("now() + " ++ quoteStr "1 day")
  | "yesterday" => some ("now() + " ++ quoteStr "-1 day")
  | _ => none

/-- JS chained replace of one leading and one
trailing double quote independently. -/
def stripOuterQuotes (s : String) : String :=
  let s := if strStartsWith s "\"" then strDrop s 1 else s
  if strEndsWith s "\"" then strDropRight s 1 else s

/-- Numeric value of a digit string (`parseInt` on an all-digit match). -/
def digitsVal (cs : List Char) : Nat :=
  cs.foldl (fun acc c => acc * 10 + (c.toNat - 48)) 0

/-- Search for the first match of `/(\d+)\s*([a-zA-Z]+)/`, returning the
digit run and the letter run. -/
def durRegexSearch : List Char → Option (List Char × List Char)
  | [] => none
  | c :: rest =>
    if c.isDigit then
      let digits := (c :: rest).takeWhile Char.isDigit
      let afterSp := ((c :: rest).dropWhile Char.isDigit).dropWhile
        Char.isWhitespace
      let letters := afterSp.takeWhile Char.isAlpha
      if letters.isEmpty then durRegexSearch rest else some (digits, letters)
    else durRegexSearch rest

/-- The `case "duration"` normalization of `transformFunction`, applied to
the regex match `(num, unit)`. -/
def durationResult (num unit : List Char) : String :=
  let numStr := String.mk num
  let numVal := digitsVal num
  let unitName := strLower (String.mk unit)
  if strStartsWith unitName "week" then
    let days := numVal * 7
    quoteStr (toString days ++ " day" ++ pluralS days)
  else
    let unitName :=
      if numVal ≠ 1 && !(strEndsWith unitName "s") then unitName ++ "s"
      else if numVal = 1 && strEndsWith unitName "s" then strDropRight unitName 1
      else unitName
    quoteStr (numStr ++ " " ++ unitName)

/-- The body of `transformFunction`, with the already-transformed argument
strings passed in (`args` in the source). -/
def transformFunctionCore (func : Field) (arguments : List Field)
    (args : List String) : String :=
  let funcName :=
    match func with
    | .variable n => n
    | .literal (.str s) => s
    | _ => ""
  if strLower funcName = "link" && arguments.length = 1 then
    "link(" ++ args.headD "" ++ ")"
  else if strLower funcName = "link" && arguments.length = 2 then
    "link(" ++ args.headD "" ++ ", " ++ (args.drop 1).headD "" ++ ")"
  else
    let basesFunc := (functionMap.lookup (strLower funcName)).getD funcName
    let datePre : Option String :=
      if basesFunc = "date" && arguments.length = 1 then
        let arg0 := arguments.headD (.literal .null)
        (match arg0 with
         | .variable vn => dateKeyword (strLower vn)
         | _ => none).orElse fun _ =>
          if isDateLikeExpression arg0 then
            match extractDateString arg0 with
            | some ds =>
              if ds ≠ "" then some ("date(" ++ quoteStr ds ++ ")") else none
            | none => none
          else none
      else none
    match datePre with
    | some r => r
    | none =>
      if basesFunc = "contains" && args.length = 2 && args.headD "" = "tags"
      then
        "file.hasTag(" ++
          quoteStr (stripOuterQuotes ((args.drop 1).headD "")) ++ ")"
      else if basesFunc = "date" && args.length = 1 then
        let a0 := args.headD ""
        match dateKeyword (strLower (stripOuterQuotes a0)) with
        | some r => r
        | none => "date(" ++ a0 ++ ")"
      else if basesFunc = "duration" && args.length = 1 then
        match durRegexSearch (args.headD "").toList with
        | some (num, unit) => durationResult num unit
        | none => basesFunc ++ "(" ++ strJoin ", " args ++ ")"
      else if basesFunc = "!isEmpty" then
        "!(" ++ strJoin ", " args ++ ".isEmpty())"
      else basesFunc ++ "(" ++ strJoin ", " args ++ ")"

/-! ## `transformFieldExpression` and `transformIndexField` -/

/-- The date-part accessor names of `transformIndexField`. -/
def dateAccessors : List String :=
  ["year", "month", "day", "hour", "minute", "second", "millisecond"]

/-- The body of `transformIndexField` with the already-transformed object
(and, for the dynamic branch, index) strings passed in. -/
def transformIndexFieldCore (objStr : String) (idx : Field)
    (idxStr : String) : String :=
  match idx with
  | .literal (.str s) =>
    if dateAccessors.contains (strLower s) then objStr ++ "." ++ strLower s
    else mapDataviewPropertyToBaseProperty (objStr ++ "." ++ s)
  | _ => objStr ++ "[" ++ idxStr ++ "]"

mutual
/-- Embedding of `DataviewToBasesTransformer.transformFieldExpression`. -/
def transformFieldExpression : Field → BValue
  | .variable name => .str (mapDataviewPropertyToBaseProperty name)
  | .literal v => .str (transformLiteral v)
  | .index obj idx =>
    .str (transformIndexFieldCore (transformFieldExpression obj).asStr idx
      (transformFieldExpression idx).asStr)
  | .binaryop op l r =>
    transformBinaryOpCore op l r (transformFieldExpression l)
      (transformFieldExpression r)
  | .function f args =>
    .str (transformFunctionCore f args (transformFieldList args))
  | .negated child => .group "not" [transformFieldExpression child]
  | .list values =>
    .str ("[" ++ strJoin ", " (transformFieldList values) ++ "]")
termination_by structural f => f

/-- Transform a list of argument/element fields to their string coercions
(the `map` in `transformFunction` / the `list` case). -/
def transformFieldList : List Field → List String
  | [] => []
  | f :: fs => (transformFieldExpression f).asStr :: transformFieldList fs
termination_by structural l => l
end

/-! ## Table columns (`transformNamedField`, `transformHeader`) -/

/-- Embedding of `DataviewToBasesTransformer.isFormulaField`: anything other than a
variable or a chain of index accesses over one is a formula. -/
def isFormulaField : Field → Bool
  | .variable _ => false
  | .index obj _ => isFormulaField obj
  | _ => true

/-- JS replacement of whitespace runs: collapse each whitespace run into one
underscore.  The flag records whether the previous character was part of a
whitespace run. -/
def squashWsAux : Bool → List Char → List Char
  | _, [] => []
  | prevWs, c :: cs =>
    if c.isWhitespace then
      if prevWs then squashWsAux true cs else '_' :: squashWsAux true cs
    else c :: squashWsAux false cs

/-- Formula-key derivation: display alias lower-cased with whitespace runs
replaced by underscores. -/
def formulaKeyOf (displayName : String) : String :=
  String.mk (squashWsAux false (strLower displayName).toList)

/-- The record returned by `transformNamedField`. -/
structure TransformedField where
  fieldName : String
  displayName : String
  formula : Option String
  formulaKey : Option String

/-- Embedding of `DataviewToBasesTransformer.transformNamedField` (the `index` parameter
of the source is unused there). -/
def transformNamedField (namedField : NamedField) : TransformedField :=
  let displayName := namedField.name
  if isFormulaField namedField.field then
    let formulaKey := formulaKeyOf displayName
    { fieldName := "formula." ++ formulaKey, displayName,
      formula := some (transformFieldExpression namedField.field).asStr,
      formulaKey := some formulaKey }
  else
    { fieldName := (transformFieldExpression namedField.field).asStr,
      displayName, formula := none, formulaKey := none }

/-- JS object-key assignment `m[k] = v`: update in place if the key exists
(keeping its insertion position), else append. -/
def objSet (m : List (String × String)) (k v : String) :
    List (String × String) :=
  if m.any (fun p => p.1 = k) then
    m.map (fun p => if p.1 = k then (k, v) else p)
  else m ++ [(k, v)]

/-- The `header.fields.forEach` loop of `transformHeader`, threading the
`display` map, the `columnOrder` list and the `formulas` map. -/
def buildColumns : List NamedField → List (String × String) → List String →
    List (String × String) →
    List (String × String) × List String × List (String × String)
  | [], d, ord, fs => (d, ord, fs)
  | nf :: rest, d, ord, fs =>
    let t := transformNamedField nf
    let d := objSet d t.fieldName t.displayName
    let ord := ord ++ [t.fieldName]
    let fs :=
      match t.formula, t.formulaKey with
      | some f, some k => objSet fs k f
      | _, _ => fs
    buildColumns rest d ord fs

/-- The parts of the result that `transformHeader` fills in. -/
structure HeaderOut where
  display : Option (List (String × String))
  order : Option (List String)
  formulas : Option (List (String × String))

/-- Embedding of `DataviewToBasesTransformer.transformHeader`; the thrown errors become
`Except.error`. -/
def transformHeader : QueryHeader → Except String HeaderOut
  | .table fields showId =>
    if fields.length > 0 then
      let d0 := if showId then [("file.name", "Name")] else []
      let ord0 : List String := if showId then ["file.name"] else []
      let (d, ord, fs) := buildColumns fields d0 ord0 []
      .ok { display := some d, order := some ord,
            formulas := if fs.length > 0 then some fs else none }
    else if showId then
      .ok { display := some [("file.name", "Name")],
            order := some ["file.name"], formulas := none }
    else
      .ok { display := none, order := none, formulas := none }
  | .list _ _ =>
    .error "LIST queries are not supported. Please use TABLE queries instead."
  | .task =>
    .error "TASK queries are not supported. Please use TABLE queries instead."
  | .calendar _ =>
    .error
      "CALENDAR queries are not supported. Please use TABLE queries instead."

/-! ## `transformSource` -/

/-- Embedding of `DataviewToBasesTransformer.transformSource`. -/
def transformSource : Source → BValue
  | .folder f =>
    if f = "" then .null else .str ("file.inFolder(" ++ quoteStr f ++ ")")
  | .tag t =>
    let tag := if strStartsWith t "#" then strDrop t 1 else t
    .str ("file.hasTag(" ++ quoteStr tag ++ ")")
  | .link f => .str ("file.hasLink(" ++ quoteStr f ++ ")")
  | .negate child =>
    let inner := transformSource child
    if !inner.truthy then .null else .group "not" [inner]
  | .binaryop op l r =>
    let left := transformSource l
    let right := transformSource r
    if !left.truthy && !right.truthy then .null
    else if !left.truthy then right
    else if !right.truthy then left
    else
      flattenLogicalOperations (if op = "&" then "and" else "or") [left, right]
  | .empty => .null

/-! ## Query orchestration (`transform`) -/

/-- Embedding of `DataviewToBasesTransformer.combineFilters`. -/
def combineFilters (sourceFilters whereFilters : BValue) : BValue :=
  if !sourceFilters.truthy && !whereFilters.truthy then .null
  else if !sourceFilters.truthy then whereFilters
  else if !whereFilters.truthy then sourceFilters
  else flattenLogicalOperations "and" [sourceFilters, whereFilters]

/-- JavaScript `parseInt` restricted to decimal inputs: skip leading
whitespace, read an optional sign and then a leading digit run; `NaN`
(here `none`) when no digit follows. -/
def parseIntJS (s : String) : Option Int :=
  let cs := s.toList.dropWhile Char.isWhitespace
  let signAndRest : Int × List Char :=
    match cs with
    | '-' :: rest => (-1, rest)
    | '+' :: rest => (1, rest)
    | _ => (1, cs)
  let digits := signAndRest.2.takeWhile Char.isDigit
  if digits.isEmpty then none
  else some (signAndRest.1 * (digitsVal digits : Int))

/-- The limit computed by `transformLimitClause`: a numeric literal is used
directly; otherwise the lowered amount is `parseInt`ed, and on `NaN` the
current limit is left untouched. -/
def transformLimitAmount (amount : Field) (current : Option Int) :
    Option Int :=
  match amount with
  | .literal (.num n) => some n
  | _ =>
    match parseIntJS (transformFieldExpression amount).asStr with
    | some n => some n
    | none => current

/-- One sort entry of the `sort` array (`{column, direction}`). -/
structure SortEntry where
  column : BValue
  direction : String

/-- The single view object of the result. -/
structure ViewConfig where
  type : String
  name : String
  limit : Option Int
  filters : Option BValue
  order : Option (List String)
  group_by : Option BValue
  sort : Option (List SortEntry)

/-- The Bases configuration object built by `transform`. -/
structure BasesConfig where
  views : List ViewConfig
  display : Option (List (String × String))
  formulas : Option (List (String × String))
  filters : Option BValue

/-- The `switch` body of the operations loop in `transform`, threading
`whereFilters` and the default view. -/
def applyOperation (st : BValue × ViewConfig) (op : QueryOperation) :
    BValue × ViewConfig :=
  match op with
  | .whereStep clause => (transformFieldExpression clause, st.2)
  | .sortStep fields =>
    (st.1, { st.2 with
      sort := some (fields.map fun sf =>
        { column := transformFieldExpression sf.field,
          direction :=
            if sf.direction = .ascending then "asc" else "desc" }) })
  | .limitStep amount =>
    (st.1, { st.2 with limit := transformLimitAmount amount st.2.limit })
  | .groupStep nf =>
    (st.1, { st.2 with group_by := some (transformFieldExpression nf.field) })
  | _ => st

/-- Embedding of `DataviewToBasesTransformer.transform`; the header errors short-circuit
as `Except.error`, so a failed call returns no configuration at all. -/
def transform (query : Query) (placeFiltersInView : Bool := true) :
    Except String BasesConfig :=
  match transformHeader query.header with
  | .error e => .error e
  | .ok h =>
    let sourceFilters := transformSource query.source
    let view0 : ViewConfig :=
      { type := "table", name := "Default view", limit := none,
        filters := none, order := h.order, group_by := none, sort := none }
    let st := query.operations.foldl applyOperation (BValue.null, view0)
    let combined := combineFilters sourceFilters st.1
    let cfg : BasesConfig :=
      { views := [st.2], display := h.display, formulas := h.formulas,
        filters := none }
    .ok
      (if combined.truthy then
        if placeFiltersInView then
          { cfg with views := [{ st.2 with filters := some combined }] }
        else { cfg with filters := some combined }
      else cfg)

/-- Whether the LIMIT amount is a numeric literal
(`amount.type === "literal" && typeof amount.value === "number"`). -/
def isNumericLiteral : Field → Bool
  | .literal (.num _) => true
  | _ => false

/-- The duration operands named by the specification for date arithmetic:
a `dur(...)` call or a literal Luxon `Duration` value. -/
def isDurationValueOperand : Field → Bool
  | .function (.variable n) _ => strLower n = "dur"
  | .literal (.dur _) => true
  | _ => false

/-! ## Theorems -/

/-- C5: for every query whose header is `List`, `Task` or `Calendar`,
`transform` raises an error whose message names that header keyword (the
message starts with it) and returns no configuration at all; this holds for
every source, operation list and filter placement. -/
theorem c5_unsupported_header_errors :
    (∀ (fmt : Option Field) (showId : Bool) (src : Source)
        (ops : List QueryOperation) (pf : Bool),
      ∃ msg, transform ⟨.list fmt showId, src, ops⟩ pf = .error msg ∧
        strStartsWith msg "LIST" = true) ∧
    (∀ (src : Source) (ops : List QueryOperation) (pf : Bool),
      ∃ msg, transform ⟨.task, src, ops⟩ pf = .error msg ∧
        strStartsWith msg "TASK" = true) ∧
    (∀ (nf : NamedField) (src : Source) (ops : List QueryOperation)
        (pf : Bool),
      ∃ msg, transform ⟨.calendar nf, src, ops⟩ pf = .error msg ∧
        strStartsWith msg "CALENDAR" = true) := by
  refine ⟨?_, ?_, ?_⟩ <;> intros <;> exact ⟨_, rfl, by decide⟩

/-- C4 counterexample: negating a source whose child lowers to nothing (an
empty folder path) lowers to `null`, not to a one-element NOT-group, so the
unconditional claim fails on `Negated` sources. -/
theorem c4_counterexample :
    transformSource (.negate (.folder "")) = BValue.null ∧
    transformSource (.negate (.folder "")) ≠
      .group "not" [transformSource (.folder "")] :=
  ⟨rfl, fun h => BValue.noConfusion h⟩

/-- C4 amended: a negated `Field` always lowers to a one-element NOT-group
around the lowered child, whatever its shape; a negated `Source` does so
whenever its child lowers to a truthy (non-null, non-empty) value, and
lowers to `null` otherwise. -/
theorem c4_negation_amended :
    (∀ f : Field, transformFieldExpression (.negated f) =
      .group "not" [transformFieldExpression f]) ∧
    (∀ s : Source, (transformSource s).truthy = true →
      transformSource (.negate s) = .group "not" [transformSource s]) := by
  constructor
  · intro f; simp [transformFieldExpression]
  · intro s h; simp [transformSource, h]

/-- C4 witness: a concrete negated tag source and the negation of an
`and`-group source both produce one-element NOT-groups. -/
theorem c4_witness :
    transformSource (.negate (.tag "book")) =
      .group "not" [transformSource (.tag "book")] ∧
    transformFieldExpression (.negated (.variable "done")) =
      .group "not" [transformFieldExpression (.variable "done")] :=
  ⟨c4_negation_amended.2 (.tag "book") (by decide),
   c4_negation_amended.1 (.variable "done")⟩

/-- C7 counterexample: the date-part accessor rewrite emits the lower-cased
*dotted* form, not the prefix-function form: `due.month` lowers to the
string `due.month`, not `month(due)`. -/
theorem c7_counterexample :
    transformFieldExpression
        (.index (.variable "due") (.literal (.str "month"))) =
      .str "due.month" ∧ ("due.month" : String) ≠ "month(due)" :=
  ⟨rfl, by decide⟩

/-- C7 amended: an index access whose string key is a date-part accessor
(case-insensitively) lowers to the dotted form `base.accessor` with the
accessor lower-cased, bypassing the rename table; every other string-keyed
property chain is passed through `mapDataviewPropertyToBaseProperty`. -/
theorem c7_index_amended :
    (∀ (base : Field) (key : String),
      dateAccessors.contains (strLower key) = true →
      transformFieldExpression (.index base (.literal (.str key))) =
        .str ((transformFieldExpression base).asStr ++ "." ++ strLower key)) ∧
    (∀ (base : Field) (key : String),
      dateAccessors.contains (strLower key) = false →
      transformFieldExpression (.index base (.literal (.str key))) =
        .str (mapDataviewPropertyToBaseProperty
          ((transformFieldExpression base).asStr ++ "." ++ key))) := by
  constructor <;> intro base key h <;>
    simp only [transformFieldExpression, transformIndexFieldCore] <;>
    rw [h] <;> simp

/-- C7 witness: `due.Year` lowers to the dotted lower-cased accessor form,
and `file.cday` goes through the rename table to `file.ctime`. -/
theorem c7_witness :
    transformFieldExpression
        (.index (.variable "due") (.literal (.str "Year"))) =
      .str "due.year" ∧
    transformFieldExpression
        (.index (.variable "file") (.literal (.str "cday"))) =
      .str "file.ctime" :=
  ⟨(c7_index_amended.1 (.variable "due") "Year" (by decide)).trans rfl,
   (c7_index_amended.2 (.variable "file") "cday" (by decide)).trans rfl⟩

/-- C10: a variable or property name outside the static rename table (and
with no surrounding whitespace, so that the initial `trim` is the identity)
has every hyphen replaced by an underscore when it contains one, and passes
through unchanged otherwise. -/
theorem c10_hyphen_normalization (prop : String)
    (htrim : strTrim prop = prop)
    (htable : propertyMap.lookup prop = none) :
    transformFieldExpression (.variable prop) =
      .str (mapDataviewPropertyToBaseProperty prop) ∧
    (strContainsChar prop '-' = true →
      mapDataviewPropertyToBaseProperty prop = hyphensToUnderscores prop) ∧
    (strContainsChar prop '-' = false →
      mapDataviewPropertyToBaseProperty prop = prop) := by
  refine ⟨by simp [transformFieldExpression], ?_, ?_⟩ <;> intro h <;>
    simp [mapDataviewPropertyToBaseProperty, htrim, htable, h]

/-- A duration operand in the specification's sense satisfies the
transformer's `isRightDuration` check. -/
lemma durationValue_isRightDuration (rf : Field)
    (h : isDurationValueOperand rf = true) :
    isRightDurationOperand rf = true := by
  cases rf with
  | function f args =>
    cases f <;> simp_all [isDurationValueOperand, isRightDurationOperand]
  | literal v =>
    cases v <;> simp_all [isDurationValueOperand, isRightDurationOperand]
  | «variable» n => simp_all [isDurationValueOperand]
  | index o i => simp_all [isDurationValueOperand]
  | binaryop o l r => simp_all [isDurationValueOperand]
  | negated c => simp_all [isDurationValueOperand]
  | list vs => simp_all [isDurationValueOperand]

/-- C2: for every binary `+` or `-` whose left operand is a date expression
(per the transformer's `isLeftDate` check) and whose right operand is a
duration (a `dur()` call or a duration literal), the lowering emits
`left + "<signed-duration>"`: the operator is always `+`, the quotes of the
lowered duration are stripped, and subtraction prepends `-` to the duration
string instead of emitting a minus operator.  In particular
`date(today) - dur(7 days)` lowers to exactly `now() + "-7 days"`. -/
theorem c2_date_arithmetic :
    (∀ (op : String) (lf rf : Field), (op = "+" ∨ op = "-") →
      isLeftDateOperand lf = true → isDurationValueOperand rf = true →
      transformFieldExpression (.binaryop op lf rf) =
        .str ((transformFieldExpression lf).asStr ++ " + " ++
          quoteStr
            (let d := stripQuotePair (transformFieldExpression rf).asStr
             if op = "-" && !(strStartsWith d "-") then "-" ++ d else d))) ∧
    transformFieldExpression (.binaryop "-"
        (.function (.variable "date") [.variable "today"])
        (.function (.variable "dur") [.literal (.str "7 days")])) =
      .str ("now() + " ++ quoteStr "-7 days") := by
  constructor
  · intro op lf rf hop hl hr
    have hrd := durationValue_isRightDuration rf hr
    rcases hop with rfl | rfl <;>
      simp [transformFieldExpression, transformBinaryOpCore, hl, hrd]
  · rfl

/-- C2 witness: `now() + dur(3 days)` (a duration literal on the right)
lowers to `now() + "3 days"` via the theorem. -/
theorem c2_witness :
    transformFieldExpression (.binaryop "+"
        (.function (.variable "now") [])
        (.literal (.dur ⟨0, 0, 0, 3, 0, 0, 0⟩))) =
      .str ("now() + " ++ quoteStr "3 days") :=
  (c2_date_arithmetic.1 "+" (.function (.variable "now") [])
    (.literal (.dur ⟨0, 0, 0, 3, 0, 0, 0⟩)) (Or.inl rfl) (by decide)
    (by decide)).trans rfl

/-- The character list distributes over string append. -/
lemma strToList_append (a b : String) :
    (a ++ b).toList = a.toList ++ b.toList := by
  cases a; cases b; rfl

/-- Lemma: `takeWhile` runs through a leading block all of whose elements satisfy the
predicate. -/
lemma takeWhile_append_all {α} (p : α → Bool) (l1 l2 : List α)
    (h : l1.all p = true) :
    (l1 ++ l2).takeWhile p = l1 ++ l2.takeWhile p := by
  induction l1 with
  | nil => simp
  | cons a l ih =>
    simp only [List.all_cons, Bool.and_eq_true] at h
    simp [List.takeWhile_cons, h.1, ih h.2]

/-- Lemma: `dropWhile` runs through a leading block all of whose elements satisfy the
predicate. -/
lemma dropWhile_append_all {α} (p : α → Bool) (l1 l2 : List α)
    (h : l1.all p = true) :
    (l1 ++ l2).dropWhile p = l2.dropWhile p := by
  induction l1 with
  | nil => simp
  | cons a l ih =>
    simp only [List.all_cons, Bool.and_eq_true] at h
    simp [List.dropWhile_cons, h.1, ih h.2]

/-- The duration regex matches at the first digit: a nonempty digit run
followed (after optional whitespace) by a nonempty letter run. -/
lemma durRegexSearch_append (num rest : List Char)
    (hne : num ≠ []) (hdig : num.all Char.isDigit = true)
    (htake : rest.takeWhile Char.isDigit = [])
    (hdrop : rest.dropWhile Char.isDigit = rest)
    (hletters :
      ((rest.dropWhile Char.isWhitespace).takeWhile Char.isAlpha).isEmpty =
        false) :
    durRegexSearch (num ++ rest) =
      some (num, (rest.dropWhile Char.isWhitespace).takeWhile Char.isAlpha) :=
  by
  cases num with
  | nil => exact absurd rfl hne
  | cons c tl =>
    simp only [List.all_cons, Bool.and_eq_true] at hdig
    have hdtl : (tl ++ rest).takeWhile Char.isDigit = tl := by
      rw [takeWhile_append_all Char.isDigit tl rest hdig.2, htake,
        List.append_nil]
    have hdtl2 : (tl ++ rest).dropWhile Char.isDigit = rest := by
      rw [dropWhile_append_all Char.isDigit tl rest hdig.2, hdrop]
    rw [List.cons_append, durRegexSearch]
    simp only [hdig.1, if_true, List.takeWhile_cons, List.dropWhile_cons,
      hdtl, hdtl2, hletters]
    simp [hletters]

/-- Unfolding of `FlatList` as `all` of the per-child flatness condition. -/
lemma flatList_eq_all (op : String) (cs : List BValue) :
    BValue.FlatList op cs =
      cs.all fun c =>
        (!((op = "and" || op = "or") && c.isGroupOf op)) && c.Flat := by
  induction cs with
  | nil => rfl
  | cons c cs ih => simp only [BValue.FlatList, ih, List.all_cons]

/-- Every element of the flattened child list is flat and is not a group
with the flattening operator. -/
lemma flattenOps_flat (operator : String)
    (hop : operator = "and" ∨ operator = "or")
    (ops : List BValue) (h : ∀ v ∈ ops, v.Flat = true) :
    ∀ c ∈ flattenOps operator ops,
      c.Flat = true ∧ c.isGroupOf operator = false := by
  induction ops with
  | nil => intro c hc; simp [flattenOps] at hc
  | cons v rest ih =>
    intro c hc
    have hv : v.Flat = true := h v (by simp)
    have hrest := ih fun w hw => h w (by simp [hw])
    rw [flattenOps, List.mem_append] at hc
    rcases hc with hc | hc
    · cases v with
      | null => simp [flattenStep] at hc
      | str s =>
        simp [flattenStep] at hc; subst hc; exact ⟨rfl, rfl⟩
      | group o cs =>
        rw [flattenStep] at hc
        by_cases ho : o = operator
        · rw [if_pos ho] at hc
          subst ho
          simp only [BValue.Flat, flatList_eq_all, List.all_eq_true] at hv
          have hc2 := hv c hc
          rcases hop with rfl | rfl <;> simp_all
        · rw [if_neg ho] at hc
          simp at hc; subst hc
          exact ⟨hv, by simp [BValue.isGroupOf, ho]⟩
    · exact hrest c hc

/-- Flattening preserves flatness of its inputs. -/
lemma flatten_preserves_flat (operator : String)
    (hop : operator = "and" ∨ operator = "or")
    (ops : List BValue) (h : ∀ v ∈ ops, v.Flat = true) :
    (flattenLogicalOperations operator ops).Flat = true := by
  have hall := flattenOps_flat operator hop ops h
  unfold flattenLogicalOperations
  cases hfo : flattenOps operator ops with
  | nil => rfl
  | cons x xs =>
    cases xs with
    | nil => exact (hall x (by rw [hfo]; simp)).1
    | cons y ys =>
      show (BValue.group operator (x :: y :: ys)).Flat = true
      simp only [BValue.Flat, flatList_eq_all, List.all_eq_true]
      intro c hc
      have hc2 := hall c (by rw [hfo]; exact hc)
      simp [hc2.1, hc2.2]

/-- Binary-operation lowering preserves flatness of the lowered operands. -/
lemma transformBinaryOpCore_flat (op : String) (lf rf : Field)
    (left right : BValue) (hl : left.Flat = true) (hr : right.Flat = true) :
    (transformBinaryOpCore op lf rf left right).Flat = true := by
  simp only [transformBinaryOpCore]
  split_ifs <;> try rfl
  all_goals refine flatten_preserves_flat _ (by simp) [left, right] ?_
  all_goals
    intro v hv
    rcases List.mem_pair.mp hv with rfl | rfl
    · exact hl
    · exact hr

/-- Every value produced by `transformFieldExpression` is flat: no
`and`/`or` group in it directly contains a group with the same operator. -/
lemma transformFieldExpression_flat :
    ∀ f : Field, (transformFieldExpression f).Flat = true := by
  suffices h : ∀ (n : Nat) (f : Field), sizeOf f ≤ n →
      (transformFieldExpression f).Flat = true by
    intro f; exact h (sizeOf f) f le_rfl
  intro n
  induction n with
  | zero =>
    intro f hf
    cases f <;> simp_arith at hf
  | succ n ih =>
    intro f hf
    cases f with
    | «variable» name => rfl
    | literal v => rfl
    | index o i => rfl
    | function fn args => rfl
    | list vs => rfl
    | binaryop op l r =>
      have hfl : sizeOf l ≤ n := by simp_arith at hf; omega
      have hfr : sizeOf r ≤ n := by simp_arith at hf; omega
      simp only [transformFieldExpression]
      exact transformBinaryOpCore_flat op l r _ _ (ih l hfl) (ih r hfr)
    | negated c =>
      have hfc : sizeOf c ≤ n := by simp_arith at hf; omega
      have hna : ¬(("not" : String) = "and") := by decide
      have hno : ¬(("not" : String) = "or") := by decide
      simp only [transformFieldExpression, BValue.Flat, BValue.FlatList]
      simp [hna, hno, ih c hfc]

/-- Every value produced by `transformSource` is flat. -/
lemma transformSource_flat :
    ∀ s : Source, (transformSource s).Flat = true := by
  intro s
  induction s with
  | folder f =>
    by_cases h : f = "" <;> simp [transformSource, h] <;> rfl
  | tag t => rfl
  | link f => rfl
  | negate c ihc =>
    have hna : ¬(("not" : String) = "and") := by decide
    have hno : ¬(("not" : String) = "or") := by decide
    simp only [transformSource]
    split_ifs with h
    · rfl
    · simp only [BValue.Flat, BValue.FlatList]
      simp [hna, hno, ihc]
  | binaryop op l r ihl ihr =>
    simp only [transformSource]
    split_ifs <;> first
      | rfl
      | exact ihr
      | exact ihl
      | (refine flatten_preserves_flat _ (by simp) _ ?_
         intro v hv
         rcases List.mem_pair.mp hv with rfl | rfl
         · exact ihl
         · exact ihr)
  | empty => rfl

/-- C1: in filter context (one operand is a filter expression or a logical
group), `BinaryOp(&|,l,r)` lowers through `flattenLogicalOperations`, whose
output never nests a same-operator group inside an `and`/`or` group — this
flatness holds for every lowered field and source; `A & (B & C)` lowers to
one AND-group of three leaves while `A & (B | C)` keeps the OR group as a
nested child; and a flattened list of length one degenerates to its single
element rather than a one-element group. -/
theorem c1_logical_flattening :
    (∀ (op : String) (l r : Field), (op = "&" ∨ op = "|") →
      (isFilterExpression l || isFilterExpression r ||
        isLogicalObject (transformFieldExpression l) ||
        isLogicalObject (transformFieldExpression r)) = true →
      transformFieldExpression (.binaryop op l r) =
        flattenLogicalOperations (if op = "&" then "and" else "or")
          [transformFieldExpression l, transformFieldExpression r]) ∧
    (∀ f : Field, (transformFieldExpression f).Flat = true) ∧
    (∀ s : Source, (transformSource s).Flat = true) ∧
    (transformFieldExpression (.binaryop "&"
        (.binaryop "=" (.variable "a") (.literal (.num 1)))
        (.binaryop "&" (.binaryop "=" (.variable "b") (.literal (.num 2)))
          (.binaryop "=" (.variable "c") (.literal (.num 3))))) =
      .group "and" [.str "a == 1", .str "b == 2", .str "c == 3"]) ∧
    (transformFieldExpression (.binaryop "&"
        (.binaryop "=" (.variable "a") (.literal (.num 1)))
        (.binaryop "|" (.binaryop "=" (.variable "b") (.literal (.num 2)))
          (.binaryop "=" (.variable "c") (.literal (.num 3))))) =
      .group "and" [.str "a == 1",
        .group "or" [.str "b == 2", .str "c == 3"]]) ∧
    (∀ (operator : String) (ops : List BValue) (x : BValue),
      flattenOps operator ops = [x] →
      flattenLogicalOperations operator ops = x) := by
  refine ⟨?_, transformFieldExpression_flat, transformSource_flat, rfl, rfl,
    ?_⟩
  · intro op l r hop hctx
    rcases hop with rfl | rfl <;>
      simp [transformFieldExpression, transformBinaryOpCore, hctx]
  · intro operator ops x h
    unfold flattenLogicalOperations
    rw [h]

/-- C1 witness: a conjunction of two comparisons is in filter context and
lowers through the flattener, and a singleton flattened list degenerates to
its element. -/
theorem c1_witness :
    transformFieldExpression (.binaryop "&" (.variable "x")
        (.binaryop "=" (.variable "b") (.literal (.num 2)))) =
      flattenLogicalOperations "and"
        [transformFieldExpression (.variable "x"),
          transformFieldExpression
            (.binaryop "=" (.variable "b") (.literal (.num 2)))] ∧
    flattenLogicalOperations "or" [.str "p"] = .str "p" :=
  ⟨c1_logical_flattening.1 "&" (.variable "x")
      (.binaryop "=" (.variable "b") (.literal (.num 2))) (Or.inl rfl)
      (by decide),
   c1_logical_flattening.2.2.2.2.2 "or" [.str "p"] (.str "p") rfl⟩

/-- C3 counterexample: a literal Luxon `Duration` of two weeks lowers to
the string `"2 weeks"`, while the `dur(2 weeks)` call lowers to
`"14 days"` — the literal path does not convert weeks to days, so the two
paths do not share one normalization. -/
theorem c3_counterexample :
    transformFieldExpression (.literal (.dur ⟨0, 0, 2, 0, 0, 0, 0⟩)) =
      .str (quoteStr "2 weeks") ∧
    transformFieldExpression
        (.function (.variable "dur") [.literal (.str "2 weeks")]) =
      .str (quoteStr "14 days") ∧
    quoteStr "2 weeks" ≠ quoteStr "14 days" :=
  ⟨rfl, rfl, by decide⟩

/-- C3 amended: `dur(N unit)` calls are normalized with weeks converted to
days (×7) and singular/plural agreement — `dur(2 weeks)` and
`dur(14 days)` both lower to `"14 days"`, `dur(1 day)` to `"1 day"`,
`dur(3 days)` to `"3 days"`, and generally `dur(<digits> weeks)` lowers to
the quoted 7-fold day count.  Literal duration values are normalized to a
quoted `"N unit"` string with singular/plural agreement on the largest
nonzero unit, but keep their unit: a weeks literal stays in weeks. -/
theorem c3_duration_amended :
    (transformFieldExpression
        (.function (.variable "dur") [.literal (.str "2 weeks")]) =
        .str (quoteStr "14 days") ∧
     transformFieldExpression
        (.function (.variable "dur") [.literal (.str "14 days")]) =
        .str (quoteStr "14 days") ∧
     transformFieldExpression
        (.function (.variable "dur") [.literal (.str "1 day")]) =
        .str (quoteStr "1 day") ∧
     transformFieldExpression
        (.function (.variable "dur") [.literal (.str "3 days")]) =
        .str (quoteStr "3 days")) ∧
    (∀ num : List Char, num ≠ [] → num.all Char.isDigit = true →
      transformFieldExpression (.function (.variable "dur")
          [.literal (.str (String.mk num ++ " weeks"))]) =
        .str (quoteStr (toString (digitsVal num * 7) ++ " day" ++
          pluralS (digitsVal num * 7)))) ∧
    (∀ d : DurationVal, d.years = 0 → d.months = 0 → d.weeks ≠ 0 →
      transformFieldExpression (.literal (.dur d)) =
        .str (quoteStr (toString d.weeks ++ " week" ++ pluralS d.weeks))) :=
  by
  refine ⟨⟨rfl, rfl, rfl, rfl⟩, ?_, ?_⟩
  · intro num hne hdig
    have e1 : strLower "dur" = "dur" := rfl
    have e2 : functionMap.lookup "dur" = some "duration" := rfl
    have e3 : ¬(("dur" : String) = "link") := by decide
    have e4 : ¬(("duration" : String) = "date") := by decide
    have e5 : ¬(("duration" : String) = "contains") := by decide
    have e6 : ¬(("duration" : String) = "!isEmpty") := by decide
    simp only [transformFieldExpression, transformFieldList,
      transformLiteral, transformFunctionCore, BValue.asStr, e1, e2]
    simp only [e3, e4, e5, e6, if_false, iff_false, List.length_cons,
      List.length_nil, Bool.false_and, Bool.and_true, Bool.and_false,
      if_true, Bool.true_and, eq_self_iff_true, if_neg, Nat.zero_add]
    norm_num
    have hq : (quoteStr (String.mk num ++ " weeks")).data =
        '"' :: (num ++ (" weeks".toList ++ ['"'])) := by
      show ('"' :: (num ++ " weeks".data)) ++ ['"'] = _
      simp [List.append_assoc]
    rw [hq, durRegexSearch]
    have hquote : ('"').isDigit = false := rfl
    simp only [hquote, Bool.false_eq_true, if_false]
    rw [durRegexSearch_append num (" weeks".toList ++ ['"']) hne hdig
      (by decide) (by decide) (by decide)]
    have hlet : (((" weeks".toList ++ ['"']).dropWhile
        Char.isWhitespace).takeWhile Char.isAlpha) = "weeks".toList := by
      decide
    rw [hlet]
    simp only [durationResult]
    have e7 : strLower (String.mk "weeks".toList) = "weeks" := rfl
    have e8 : strStartsWith "weeks" "week" = true := rfl
    rw [e7]
    simp only [e8, if_true]
    simp [e4]
  · intro d h1 h2 h3
    simp [transformFieldExpression, transformLiteral, h1, h2, h3]

/-- C3 witness: the general weeks law applied to `dur(2 weeks)` and the
literal-duration law applied to a one-week literal. -/
theorem c3_witness :
    transformFieldExpression
        (.function (.variable "dur") [.literal (.str "2 weeks")]) =
      .str (quoteStr "14 days") ∧
    transformFieldExpression (.literal (.dur ⟨0, 0, 1, 0, 0, 0, 0⟩)) =
      .str (quoteStr "1 week") :=
  ⟨((c3_duration_amended.2.1 ['2'] (by decide) (by decide)).trans
      (by rfl)).trans rfl,
   (c3_duration_amended.2.2 ⟨0, 0, 1, 0, 0, 0, 0⟩ rfl rfl
      (by decide)).trans rfl⟩

/-- C9: appending a single LIMIT operation to a query changes exactly the
view's `limit` slot: the limit becomes the literal amount when the amount
is a numeric literal, otherwise the integer parse of the lowered amount
expression, and stays unset (`none`) when that parse fails — the rest of
the configuration is produced unchanged, and header errors still
propagate. -/
theorem c9_limit_leniency (header : QueryHeader) (src : Source)
    (amount : Field) (pf : Bool) :
    (transform ⟨header, src, [.limitStep amount]⟩ pf =
      (transform ⟨header, src, []⟩ pf).map fun cfg =>
        { cfg with views := cfg.views.map fun v =>
            { v with limit := transformLimitAmount amount none } }) ∧
    (∀ n : Int, transformLimitAmount (.literal (.num n)) none = some n) ∧
    (isNumericLiteral amount = false →
      transformLimitAmount amount none =
        parseIntJS (transformFieldExpression amount).asStr) := by
  refine ⟨?_, fun n => rfl, ?_⟩
  · unfold transform
    cases hh : transformHeader header with
    | error e => rfl
    | ok h =>
      simp only [List.foldl_cons, List.foldl_nil, applyOperation,
        Except.map]
      split_ifs <;> rfl
  · intro h
    unfold transformLimitAmount
    split
    · simp_all [isNumericLiteral]
    · split <;> simp_all

/-- C9 witness: a non-literal LIMIT amount (`x`) leaves the view unlimited
while the rest of the configuration is produced normally, and a literal
amount sets the limit. -/
theorem c9_witness :
    (transform ⟨.table [] true, .empty, [.limitStep (.variable "x")]⟩ true =
      (transform ⟨.table [] true, .empty, []⟩ true).map fun cfg =>
        { cfg with views := cfg.views.map fun v =>
            { v with limit := transformLimitAmount (.variable "x") none } }) ∧
    transformLimitAmount (.literal (.num 5)) none = some 5 ∧
    transformLimitAmount (.variable "x") none =
      parseIntJS (transformFieldExpression (.variable "x")).asStr := by
  obtain ⟨h1, h2, h3⟩ :=
    c9_limit_leniency (.table [] true) .empty (.variable "x") true
  exact ⟨h1, h2 5, h3 (by decide)⟩

/-- Key assignment appends at the end when the key is absent. -/
lemma objSet_of_not_mem (m : List (String × String)) (k v : String)
    (h : m.any (fun p => p.1 = k) = false) :
    objSet m k v = m ++ [(k, v)] := by
  simp [objSet, h]

/-- Folding `objSet` over pairwise-distinct keys that are all absent from
the initial map appends the pairs in order. -/
lemma foldl_objSet_fresh (ps : List (String × String)) :
    ∀ m : List (String × String), (ps.map Prod.fst).Nodup →
    (∀ k ∈ ps.map Prod.fst, m.any (fun p => p.1 = k) = false) →
    ps.foldl (fun d p => objSet d p.1 p.2) m = m ++ ps := by
  induction ps with
  | nil => intro m _ _; simp
  | cons hd tl ih =>
    intro m hnd hfresh
    simp only [List.map_cons, List.nodup_cons] at hnd
    simp only [List.foldl_cons]
    rw [objSet_of_not_mem m hd.1 hd.2 (hfresh hd.1 (by simp))]
    rw [ih (m ++ [(hd.1, hd.2)]) hnd.2 ?_]
    · simp
    · intro k hk
      have hk1 : m.any (fun p => p.1 = k) = false := hfresh k (by simp [hk])
      have hk2 : ¬(hd.1 = k) := fun he => hnd.1 (he ▸ hk)
      simp [List.any_append, hk1, hk2]

/-- One operation step never touches the view's `order` slot. -/
lemma applyOperation_keeps_order (st : BValue × ViewConfig)
    (op : QueryOperation) : ((applyOperation st op).2).order = st.2.order := by
  cases op <;> rfl

/-- The operation loop never touches the view's `order` slot. -/
lemma foldl_keeps_order (ops : List QueryOperation) :
    ∀ st : BValue × ViewConfig,
      ((ops.foldl applyOperation st).2).order = st.2.order := by
  induction ops with
  | nil => intro st; rfl
  | cons o os ih =>
    intro st
    rw [List.foldl_cons, ih, applyOperation_keeps_order]

/-- When the header lowers successfully, `transform` returns a
configuration with a single view whose `order`, and whose top-level
`display` and `formulas`, come from the header. -/
lemma transform_ok_shape (q : Query) (pf : Bool) (h : HeaderOut)
    (hh : transformHeader q.header = .ok h) :
    ∃ (cfg : BasesConfig) (v : ViewConfig),
      transform q pf = .ok cfg ∧ cfg.views = [v] ∧
      cfg.display = h.display ∧ cfg.formulas = h.formulas ∧
      v.order = h.order := by
  unfold transform
  rw [hh]
  simp only []
  split_ifs with h1 h2
  · exact ⟨_, _, rfl, rfl, rfl, rfl, foldl_keeps_order q.operations _⟩
  · exact ⟨_, _, rfl, rfl, rfl, rfl, foldl_keeps_order q.operations _⟩
  · exact ⟨_, _, rfl, rfl, rfl, rfl, foldl_keeps_order q.operations _⟩

/-- Evaluation of `buildColumns` over bare-variable columns: the display keys are the
mapped variable names, the order appends them in clause order, and no
formulas are produced. -/
lemma buildColumns_vars (cols : List (String × String)) :
    ∀ (d : List (String × String)) (ord : List String),
    buildColumns (cols.map fun c => ⟨c.1, .variable c.2⟩) d ord [] =
      ((cols.map fun c =>
          (mapDataviewPropertyToBaseProperty c.2, c.1)).foldl
        (fun m p => objSet m p.1 p.2) d,
       ord ++ cols.map fun c => mapDataviewPropertyToBaseProperty c.2,
       []) := by
  induction cols with
  | nil => intro d ord; simp [buildColumns]
  | cons c cs ih =>
    intro d ord
    have ht : transformNamedField ⟨c.1, .variable c.2⟩ =
        { fieldName := mapDataviewPropertyToBaseProperty c.2,
          displayName := c.1, formula := none, formulaKey := none } := by
      simp [transformNamedField, isFormulaField, transformFieldExpression,
        BValue.asStr]
    simp only [List.map_cons, buildColumns, ht, List.foldl_cons]
    rw [ih]
    simp

/-- C6 counterexample: a table query with two identical bare-variable
columns and no WHERE clause produces a display map of size one, not two —
the display key collision collapses the map, refuting the unconditional
size claim (the order still lists both columns). -/
theorem c6_counterexample :
    transform ⟨.table [⟨"foo", .variable "foo"⟩, ⟨"foo", .variable "foo"⟩]
        false, .empty, []⟩ true =
      .ok { views := [{ type := "table", name := "Default view",
                        limit := none, filters := none,
                        order := some ["foo", "foo"], group_by := none,
                        sort := none }],
            display := some [("foo", "foo")], formulas := none,
            filters := none } ∧
    ([("foo", "foo")] : List (String × String)).length ≠ 2 :=
  ⟨rfl, by decide⟩

/-- C6 amended: for a table query with only bare-variable columns,
*provided* the mapped column names are pairwise distinct and (when
`showId`) none of them collides with `file.name`, the display map's size
equals the column count plus one iff `showId`, and the view's order is
`file.name` first (iff `showId`) followed by the mapped columns in clause
order — except that a query with no columns and `showId` false has no
order list at all.  This holds for every operation list (so in particular
for every query with no WHERE clause), every source and every filter
placement, since neither display nor order depends on the operations. -/
theorem c6_display_amended (cols : List (String × String)) (showId : Bool)
    (src : Source) (ops : List QueryOperation) (pf : Bool)
    (hnd : (cols.map fun c => mapDataviewPropertyToBaseProperty c.2).Nodup)
    (hid : showId = true →
      "file.name" ∉ cols.map fun c =>
        mapDataviewPropertyToBaseProperty c.2) :
    ∃ (cfg : BasesConfig) (v : ViewConfig),
      transform ⟨.table (cols.map fun c => ⟨c.1, .variable c.2⟩) showId,
        src, ops⟩ pf = .ok cfg ∧
      cfg.views = [v] ∧
      (cfg.display.getD []).length =
        cols.length + (if showId then 1 else 0) ∧
      v.order = (if cols = [] ∧ showId = false then none
        else some ((if showId then ["file.name"] else []) ++
          cols.map fun c => mapDataviewPropertyToBaseProperty c.2)) := by
  by_cases hne : cols = []
  · subst hne
    cases showId with
    | true =>
      have hheader : transformHeader
          (.table (([] : List (String × String)).map fun c =>
            ⟨c.1, .variable c.2⟩) true) = .ok
          { display := some [("file.name", "Name")],
            order := some ["file.name"], formulas := none } := rfl
      obtain ⟨cfg, v, htr, hviews, hdisp, _, horder⟩ :=
        transform_ok_shape
          ⟨.table (([] : List (String × String)).map fun c =>
            ⟨c.1, .variable c.2⟩) true, src, ops⟩ pf _ hheader
      refine ⟨cfg, v, htr, hviews, ?_, ?_⟩
      · rw [hdisp]; rfl
      · rw [horder]; rfl
    | false =>
      have hheader : transformHeader
          (.table (([] : List (String × String)).map fun c =>
            ⟨c.1, .variable c.2⟩) false) = .ok
          { display := none, order := none, formulas := none } := rfl
      obtain ⟨cfg, v, htr, hviews, hdisp, _, horder⟩ :=
        transform_ok_shape
          ⟨.table (([] : List (String × String)).map fun c =>
            ⟨c.1, .variable c.2⟩) false, src, ops⟩ pf _ hheader
      refine ⟨cfg, v, htr, hviews, ?_, ?_⟩
      · rw [hdisp]; rfl
      · rw [horder]; rfl
  · have hmap : ((cols.map fun c =>
        (mapDataviewPropertyToBaseProperty c.2, c.1)).map Prod.fst) =
        cols.map fun c => mapDataviewPropertyToBaseProperty c.2 := by
      rw [List.map_map]; rfl
    have hfresh : ∀ k ∈ (cols.map fun c =>
        (mapDataviewPropertyToBaseProperty c.2, c.1)).map Prod.fst,
        ((if showId then [("file.name", "Name")] else []) :
          List (String × String)).any (fun p => p.1 = k) = false := by
      rw [hmap]
      intro k hk
      cases showId with
      | false => simp
      | true =>
        have hne2 : ¬("file.name" = k) := fun he => hid rfl (he ▸ hk)
        simp [hne2]
    have hfold := foldl_objSet_fresh
      (cols.map fun c => (mapDataviewPropertyToBaseProperty c.2, c.1))
      (if showId then [("file.name", "Name")] else [])
      (by rw [hmap]; exact hnd) hfresh
    have hlen : (cols.map fun c =>
        (⟨c.1, .variable c.2⟩ : NamedField)).length > 0 := by
      simp only [List.length_map]
      exact List.length_pos.mpr hne
    have hheader : transformHeader
        (.table (cols.map fun c => ⟨c.1, .variable c.2⟩) showId) = .ok
        { display := some ((if showId then [("file.name", "Name")] else [])
            ++ cols.map fun c => (mapDataviewPropertyToBaseProperty c.2,
              c.1)),
          order := some ((if showId then ["file.name"] else []) ++
            cols.map fun c => mapDataviewPropertyToBaseProperty c.2),
          formulas := none } := by
      rw [transformHeader, if_pos hlen]
      dsimp only
      rw [buildColumns_vars, hfold]
      rfl
    obtain ⟨cfg, v, htr, hviews, hdisp, _, horder⟩ :=
      transform_ok_shape
        ⟨.table (cols.map fun c => ⟨c.1, .variable c.2⟩) showId, src, ops⟩
        pf _ hheader
    refine ⟨cfg, v, htr, hviews, ?_, ?_⟩
    · rw [hdisp]
      simp only [Option.getD_some, List.length_append, List.length_map]
      cases showId <;> simp [Nat.add_comm]
    · have hcond : ¬(cols = [] ∧ showId = false) := fun hc => hne hc.1
      rw [horder, if_neg hcond]

/-- C6 witness: two distinct bare-variable columns with the identity
column shown — in a query carrying SORT and LIMIT operations but no WHERE
clause — give display size three and the expected order. -/
theorem c6_witness :
    ∃ (cfg : BasesConfig) (v : ViewConfig),
      transform ⟨.table ([("A", "alpha"), ("B", "beta")].map fun c =>
        ⟨c.1, .variable c.2⟩) true, .folder "notes",
        [.sortStep [⟨.variable "alpha", .ascending⟩],
         .limitStep (.literal (.num 5))]⟩ true = .ok cfg ∧
      cfg.views = [v] ∧
      (cfg.display.getD []).length =
        ([("A", "alpha"), ("B", "beta")] : List (String × String)).length +
          (if true then 1 else 0) ∧
      v.order = (if ([("A", "alpha"), ("B", "beta")] :
            List (String × String)) = [] ∧ true = false then none
        else some ((if true then ["file.name"] else []) ++
          [("A", "alpha"), ("B", "beta")].map fun c =>
            mapDataviewPropertyToBaseProperty c.2)) :=
  c6_display_amended [("A", "alpha"), ("B", "beta")] true (.folder "notes")
    [.sortStep [⟨.variable "alpha", .ascending⟩],
     .limitStep (.literal (.num 5))] true (by decide) (by decide)

/-- C10 witness: `pages-read` lowers to `pages_read`, and `status` passes
through unchanged. -/
theorem c10_witness :
    transformFieldExpression (.variable "pages-read") = .str "pages_read" ∧
    mapDataviewPropertyToBaseProperty "status" = "status" :=
  ⟨(c10_hyphen_normalization "pages-read" (by decide) (by decide)).1.trans
    rfl,
   (c10_hyphen_normalization "status" (by decide) (by decide)).2.2
    (by decide)⟩

end BasesToolbox
